import Mathlib

/-!
Shallow embedding of the watermark server (`src/app.py`) for checking its
natural-language specification.

Modelling conventions:
* Filenames are `String`s; a store (directory) is the list of filenames it
  holds (directory listings have unique names, so lists stand in for sets).
* Machine timestamps are integer seconds (`Int`); `datetime` arithmetic in
  the source is exact at this resolution.
* Python float constants `0.5` and `0.2` are modelled as the rationals
  `1/2` and `1/5`; `int(x)` on a non-negative float is `Int.floor` followed
  by `Int.toNat`.
* Exceptions raised by the imaging library or the filesystem are modelled
  by Boolean oracles carried on each staged file (`decodeOk`, `heicOk`,
  `removeOk`); fallible routines return `Except`.
* Directory prefixes (`os.path.join(folder, name)`) are dropped: a name is
  interpreted relative to its store.
-/

namespace WatermarkServer

/-- `UPLOAD_FOLDER = 'Uploads'` (app.py line 17). -/
def UPLOAD_FOLDER : String := "Uploads"

/-- `WATERMARKED_FOLDER = 'watermarked'` (app.py line 18). -/
def WATERMARKED_FOLDER : String := "watermarked"

/-- `LOGO_PATH = 'logo.png'` (app.py line 19). -/
def LOGO_PATH : String := "logo.png"

/-- `ALLOWED_EXTENSIONS = {'jpg', 'jpeg', 'png', 'heic', 'heif'}` (app.py line 20). -/
def ALLOWED_EXTENSIONS : List String := ["jpg", "jpeg", "png", "heic", "heif"]

/-- Split a character list at its LAST dot: `rsplitDot cs = some (before, after)`
when `cs` contains a dot, `none` otherwise.  This is Python's
`s.rsplit('.', 1)` restricted to the case used in the source. -/
def rsplitDot : List Char → Option (List Char × List Char)
  | [] => none
  | c :: cs =>
    match rsplitDot cs with
    | some (b, a) => some (c :: b, a)
    | none => if c = '.' then some ([], cs) else none

/-- `str.lower()` on ASCII file extensions. -/
def lowerStr (s : String) : String := String.mk (s.data.map Char.toLower)

/-- `allowed_file` (app.py lines 30-31):
`'.' in filename and filename.rsplit('.', 1)[1].lower() in ALLOWED_EXTENSIONS`. -/
def allowed_file (filename : String) : Bool :=
  match rsplitDot filename.data with
  | some (_, ext) => ALLOWED_EXTENSIONS.contains (String.mk (ext.map Char.toLower))
  | none => false

/-- `os.path.splitext`: split into `(root, ext)`; the extension starts at the
last dot, but only when some earlier character is not a dot (CPython's
leading-dot rule, e.g. `splitext '.bashrc' = ('.bashrc', "")`). -/
def splitext (s : String) : String × String :=
  match rsplitDot s.data with
  | some (b, a) =>
    if b.any (fun c => c ≠ '.') then (String.mk b, String.mk ('.' :: a))
    else (s, "")
  | none => (s, "")

/-- `filename.rsplit('.', 1)[0]`: everything before the last dot, or the whole
string when there is no dot (app.py line 176). -/
def rsplitStem (s : String) : String :=
  match rsplitDot s.data with
  | some (b, _) => String.mk b
  | none => s

/-- The parameters of one `save` call issued by `add_watermark`
(app.py lines 72-87). -/
structure EncodeCall where
  format : String
  ext : String
  quality : Option Nat
  subsampling : Option Nat
  compress_level : Option Nat
  deriving DecidableEq

/-- `base_image.save(..., format='JPEG', quality=100, subsampling=0)`. -/
def jpegSave : EncodeCall := ⟨"JPEG", ".jpg", some 100, some 0, none⟩

/-- `base_image.save(..., format='PNG', compress_level=0)`. -/
def pngSave : EncodeCall := ⟨"PNG", ".png", none, none, some 0⟩

/-- `pillow_heif.from_pillow(base_image); heif_file.save(... + '.heic', quality=100)`. -/
def heicSave : EncodeCall := ⟨"HEIC", ".heic", some 100, none, none⟩

/-- The save dispatch of `add_watermark` (app.py lines 72-87) as a function of
the PIL-reported source format.  `heicOk` tells whether the HEIC encoder call
succeeds; on failure the `except` branch (line 82-84) re-encodes the same
buffer as JPEG, so the caller never sees the HEIC error. -/
def saveDispatch (original_format : String) (heicOk : Bool) : EncodeCall :=
  if original_format = "JPEG" ∨ original_format = "JPG" then jpegSave
  else if original_format = "PNG" then pngSave
  else if original_format = "HEIC" ∨ original_format = "HEIF" then
    if heicOk then heicSave else jpegSave
  else jpegSave

/-- The `0.5` opacity constant of `alpha = watermark.split()[3].point(lambda p: int(p * 0.5))`
(app.py line 52). -/
def OPACITY : ℚ := 1 / 2

/-- The `0.2` scale constant of `watermark_width = int(base_image.width * 0.2)`
(app.py line 47). -/
def SCALE : ℚ := 1 / 5

/-- The lambda `p ↦ int(p * opacity)` applied to each alpha byte, with the
opacity constant abstracted; `int` on a non-negative value truncates, i.e.
floors. -/
def pointOpacity (opacity : ℚ) (p : Nat) : Nat := (Int.floor ((p : ℚ) * opacity)).toNat

/-- The alpha transformation actually run by the source: `lambda p: int(p * 0.5)`
(app.py line 52). -/
def alphaPoint (p : Nat) : Nat := pointOpacity OPACITY p

/-- `watermark_width = int(base_image.width * 0.2)` (app.py line 47). -/
def watermark_width (baseW : Nat) : Nat := (Int.floor ((baseW : ℚ) * SCALE)).toNat

/-- `watermark_height = int(watermark_width * (watermark.height / watermark.width))`
(app.py line 48). -/
def watermark_height (baseW logoW logoH : Nat) : Nat :=
  (Int.floor ((watermark_width baseW : ℚ) * ((logoH : ℚ) / (logoW : ℚ)))).toNat

/-- `position = (base_image.width - watermark_width - 20, base_image.height - watermark_height - 20)`
(app.py line 56).  Python integers are unbounded and signed, so the
coordinates live in `ℤ` and may be negative. -/
def watermarkPosition (baseW baseH wmW wmH : Int) : Int × Int :=
  (baseW - wmW - 20, baseH - wmH - 20)

/-- Closed form of `alphaPoint`: truncating `p * 0.5` halves the byte. -/
lemma alphaPoint_eq_div (p : Nat) : alphaPoint p = p / 2 := by
  rw [alphaPoint, pointOpacity, OPACITY, Int.floor_toNat, mul_one_div]
  rw [show ((2:ℚ)) = ((2:ℕ):ℚ) by norm_num, Nat.floor_div_nat, Nat.floor_natCast]

/-- Closed form of `watermark_width`: truncating `baseW * 0.2` is division by 5. -/
lemma watermark_width_eq_div (baseW : Nat) : watermark_width baseW = baseW / 5 := by
  rw [watermark_width, SCALE, Int.floor_toNat, mul_one_div]
  rw [show ((5:ℚ)) = ((5:ℕ):ℚ) by norm_num, Nat.floor_div_nat, Nat.floor_natCast]

/-- Closed form of `watermark_height` as integer division. -/
lemma watermark_height_eq_div (baseW logoW logoH : Nat) :
    watermark_height baseW logoW logoH = watermark_width baseW * logoH / logoW := by
  rw [watermark_height, Int.floor_toNat, mul_div_assoc']
  rw [show ((watermark_width baseW : ℚ) * logoH) = (((watermark_width baseW * logoH : ℕ)):ℚ) by
    push_cast; ring, Nat.floor_div_nat, Nat.floor_natCast]

/-- The overlay geometry computed by `add_watermark` (app.py lines 46-56) for a
base image of size `baseW × baseH` and a logo asset of size `logoW × logoH`. -/
structure Geometry where
  w : Nat
  h : Nat
  pos : Int × Int
  deriving DecidableEq

/-- Geometry portion of `add_watermark`: scaled watermark size and paste
position (app.py lines 46-56). -/
def compositorGeometry (baseW baseH logoW logoH : Nat) : Geometry :=
  let w := watermark_width baseW
  let h := watermark_height baseW logoW logoH
  ⟨w, h, watermarkPosition baseW baseH w h⟩

/-- A staged file as the batch processor sees it: its filename plus oracles for
the imaging/filesystem calls made while processing it.  `format` is the
PIL-reported format of the decoded image; `decodeOk` is false when
`add_watermark` raises anywhere outside the caught HEIC-save `try` block
(open, decode, composite or final save); `heicOk` is false when
`pillow_heif` save raises (the caught exception, app.py line 82); `removeOk`
is false when `os.remove(input_path)` raises (app.py line 181). -/
structure StagedFile where
  name : String
  format : String
  decodeOk : Bool
  heicOk : Bool
  removeOk : Bool
  deriving DecidableEq

/-- `add_watermark(image_path, output_path)` (app.py lines 34-89), observable
effect: the name of the file it writes into the watermarked folder, or the
uncaught exception.  The source strips the extension of `output_path`
(line 70: `os.path.splitext(output_path)[0]`) and appends the extension chosen
by the save dispatch; a failed HEIC save is caught and re-done as JPEG. -/
def add_watermark (f : StagedFile) (output_path : String) : Except String String :=
  if f.decodeOk then .ok ((splitext output_path).1 ++ (saveDispatch f.format f.heicOk).ext)
  else .error "decode failure"

/-- `output_ext = '.heic' if original_ext in ('.heic', '.heif') else '.png' if original_ext == '.png' else '.jpg'`
(app.py line 175). -/
def output_ext_for (original_ext : String) : String :=
  if original_ext = ".heic" ∨ original_ext = ".heif" then ".heic"
  else if original_ext = ".png" then ".png"
  else ".jpg"

/-- `output_filename = f"watermarked_{filename.rsplit('.', 1)[0]}{output_ext}"`
with `original_ext = os.path.splitext(filename)[1].lower()` (app.py lines 174-176). -/
def output_filename (filename : String) : String :=
  "watermarked_" ++ rsplitStem filename ++ output_ext_for (lowerStr (splitext filename).2)

/-- Cumulative side effects of one `/process` request: staged originals
removed from the upload folder, and output files written into the
watermarked folder. -/
structure BatchEffects where
  removed : List String
  written : List String
  deriving DecidableEq

/-- The JSON response of `process_files`: `{'success': True, 'links': ...}, 200`
or `{'success': False, 'error': msg}, code`. -/
inductive ProcResp
  | ok (links : List (String × String))
  | err (msg : String) (code : Nat)
  deriving DecidableEq

/-- The `for filename in original_files` loop of `process_files`
(app.py lines 172-188), with the accumulated side effects made explicit.
Per file: build the output name, run `add_watermark`; on success remove the
staged original and append the download link; on any exception return the
500 error immediately, keeping earlier files' effects. -/
def processLoop : List StagedFile → List String → List String → List (String × String) →
    ProcResp × BatchEffects
  | [], removed, written, links => (.ok links, ⟨removed, written⟩)
  | f :: rest, removed, written, links =>
    let outName := output_filename f.name
    match add_watermark f outName with
    | .error e => (.err ("Error processing " ++ f.name ++ ": " ++ e) 500, ⟨removed, written⟩)
    | .ok saved =>
      if f.removeOk then
        processLoop rest (removed ++ [f.name]) (written ++ [saved])
          (links ++ [(outName, "/download/" ++ outName)])
      else
        (.err ("Error processing " ++ f.name ++ ": remove failure") 500,
         ⟨removed, written ++ [saved]⟩)

/-- `process_files` (app.py lines 163-188): list the upload folder filtered by
`allowed_file`; with no candidates answer the 400 error; otherwise run the
processing loop. -/
def process_files (disk : List StagedFile) : ProcResp × BatchEffects :=
  let original_files := disk.filter (fun f => allowed_file f.name)
  if original_files.isEmpty then (.err "No files to process" 400, ⟨[], []⟩)
  else processLoop original_files [] [] []

/-- Name of the file `add_watermark` writes for a staged file that processes
successfully (used to state theorems about `processLoop`). -/
def watermarkSaved (f : StagedFile) : String :=
  (splitext (output_filename f.name)).1 ++ (saveDispatch f.format f.heicOk).ext

/-- The `(filename, url)` pair `process_files` appends for a successfully
processed staged file (app.py line 182). -/
def downloadLink (f : StagedFile) : String × String :=
  (output_filename f.name, "/download/" ++ output_filename f.name)

/-- A file entity of a store: filename and modification timestamp in integer
seconds. -/
structure StoredFile where
  name : String
  mtime : Int
  deriving DecidableEq

/-- `cutoff = now - timedelta(hours=24)` (app.py line 96), in seconds. -/
def cutoff (now : Int) : Int := now - 24 * 3600

/-- `mtime < cutoff` (app.py lines 103 and 115): the sweep deletes the file
exactly when its modification time is strictly below the cutoff. -/
def evicts (now : Int) (f : StoredFile) : Bool := decide (f.mtime < cutoff now)

/-- One pass of the body of `cleanup_old_files` (app.py lines 94-120) over the
two stores: the files remaining in the upload folder and in the watermarked
folder after the sweep.  Deletion failures are caught and logged in the
source; the filesystem model has no failing deletes. -/
def cleanup_pass (now : Int) (uploads watermarked : List StoredFile) :
    List StoredFile × List StoredFile :=
  (uploads.filter (fun f => ! evicts now f), watermarked.filter (fun f => ! evicts now f))

/-- Response of the two delete routes. -/
inductive DelResp
  | ok
  | notFound (msg : String) (code : Nat)
  deriving DecidableEq

/-- Body shared by `delete_file` (app.py lines 197-209) and
`delete_original_file` (lines 218-230): remove the file when it exists in the
store's directory AND `allowed_file` accepts its name, else answer 404
"File not found"; `os.path.exists` is membership in the directory listing,
and `os.remove` on a present file succeeds in the filesystem model (the
source's caught-exception 500 branch is a disk fault not modelled). -/
def delete_route (store : List String) (filename : String) : DelResp × List String :=
  if decide (filename ∈ store) && allowed_file filename then
    (.ok, store.filter (fun x => x != filename))
  else (.notFound "File not found" 404, store)

/-- `delete_file` route: deletes from the watermarked folder (app.py lines 197-209). -/
def delete_file (watermarked : List String) (filename : String) : DelResp × List String :=
  delete_route watermarked filename

/-- `delete_original_file` route: deletes from the upload folder (app.py lines 218-230). -/
def delete_original_file (uploads : List String) (filename : String) : DelResp × List String :=
  delete_route uploads filename

/-- One uploaded part of a `/stage` request: the submitted filename and an
oracle for whether `file.save` succeeds. -/
structure Upload where
  name : String
  saveOk : Bool
  deriving DecidableEq

/-- Response of the `/stage` route. -/
inductive StageResp
  | success
  | failure (msg : String) (code : Nat)
  deriving DecidableEq

/-- The `for file in files` loop of `stage_files` (app.py lines 141-150): a
part is saved only when the file object is truthy (non-empty filename) and
`allowed_file` accepts the name; otherwise the part is skipped silently; a
failing save aborts with the 500 error. -/
def stageLoop : List Upload → List String → StageResp × List String
  | [], staged => (.success, staged)
  | u :: rest, staged =>
    if u.name != "" && allowed_file u.name then
      if u.saveOk then stageLoop rest (staged ++ [u.name])
      else (.failure ("Error staging " ++ u.name) 500, staged)
    else stageLoop rest staged

/-- `stage_files` (app.py lines 129-152): reject a request without a file
part, reject when no part carries a filename, then run the staging loop and
answer success. -/
def stage_files (hasFilePart : Bool) (files : List Upload) : StageResp × List String :=
  if ! hasFilePart then (.failure "No file part" 400, [])
  else if files.isEmpty || files.all (fun u => u.name == "") then
    (.failure "No selected files" 400, [])
  else stageLoop files []

/-- When every file in the batch decodes and its staged original can be
removed, the processing loop succeeds and accumulates, in order, one removed
original, one written output and one download link per file. -/
lemma processLoop_all_ok (files : List StagedFile) (rm wr : List String)
    (lk : List (String × String))
    (h : ∀ f ∈ files, f.decodeOk = true ∧ f.removeOk = true) :
    processLoop files rm wr lk =
      (.ok (lk ++ files.map downloadLink),
       ⟨rm ++ files.map (fun f => f.name), wr ++ files.map watermarkSaved⟩) := by
  induction files generalizing rm wr lk with
  | nil => simp [processLoop]
  | cons f rest ih =>
    obtain ⟨hd, hr⟩ := h f (List.mem_cons_self f rest)
    have hrest : ∀ g ∈ rest, g.decodeOk = true ∧ g.removeOk = true :=
      fun g hg => h g (List.mem_cons_of_mem f hg)
    simp [processLoop, add_watermark, hd, hr, ih _ _ _ hrest, watermarkSaved, downloadLink]

/-- When a prefix of the batch processes cleanly and the next file raises in
`add_watermark`, the loop stops at that file: it reports the 500 error for it
and keeps exactly the prefix's side effects; the failing file's staged
original is not removed and later files are untouched. -/
lemma processLoop_stops_at_failure (good : List StagedFile) (bad : StagedFile)
    (rest : List StagedFile) (rm wr : List String) (lk : List (String × String))
    (hg : ∀ f ∈ good, f.decodeOk = true ∧ f.removeOk = true)
    (hb : bad.decodeOk = false) :
    processLoop (good ++ bad :: rest) rm wr lk =
      (.err ("Error processing " ++ bad.name ++ ": " ++ "decode failure") 500,
       ⟨rm ++ good.map (fun f => f.name), wr ++ good.map watermarkSaved⟩) := by
  induction good generalizing rm wr lk with
  | nil => simp [processLoop, add_watermark, hb]
  | cons f gs ih =>
    obtain ⟨hd, hr⟩ := hg f (List.mem_cons_self f gs)
    have hgs : ∀ g ∈ gs, g.decodeOk = true ∧ g.removeOk = true :=
      fun g hg2 => hg g (List.mem_cons_of_mem f hg2)
    simp [processLoop, add_watermark, hd, hr, ih _ _ _ hgs, watermarkSaved]

/-- When every submitted part saves cleanly, the staging loop succeeds and
stages exactly the parts with a non-empty, recognized filename, in order. -/
lemma stageLoop_all_ok (files : List Upload) (acc : List String)
    (h : ∀ u ∈ files, u.saveOk = true) :
    stageLoop files acc =
      (.success,
       acc ++ (files.filter (fun u => u.name != "" && allowed_file u.name)).map
         (fun u => u.name)) := by
  induction files generalizing acc with
  | nil => simp [stageLoop]
  | cons u rest ih =>
    have hu := h u (List.mem_cons_self u rest)
    have hrest : ∀ v ∈ rest, v.saveOk = true := fun v hv => h v (List.mem_cons_of_mem u hv)
    by_cases hcond : (u.name != "" && allowed_file u.name) = true
    · simp [stageLoop, hcond, hu, ih _ hrest, List.filter_cons]
    · simp [stageLoop, hcond, ih _ hrest, List.filter_cons]

example : allowed_file "photo.heic" = true := by decide
example : allowed_file "evil.txt" = false := by decide
example : allowed_file "noext" = false := by decide
example : allowed_file "PIC.JPG" = true := by decide
example : splitext "watermarked_photo.heic" = ("watermarked_photo", ".heic") := by decide
example : splitext ".bashrc" = (".bashrc", "") := by decide
example : rsplitStem "photo.heic" = "photo" := by decide
example : saveDispatch "HEIF" false = jpegSave := by decide
example : output_filename "photo.heic" = "watermarked_photo.heic" := by decide
example : watermarkSaved ⟨"photo.heic", "HEIF", true, false, true⟩ = "watermarked_photo.jpg" := by
  decide
example :
    process_files [⟨"photo.heic", "HEIF", true, false, true⟩] =
      (.ok [("watermarked_photo.heic", "/download/watermarked_photo.heic")],
       ⟨["photo.heic"], ["watermarked_photo.jpg"]⟩) := by decide
example : stage_files true [⟨"evil.txt", true⟩] = (.success, []) := by decide
example : compositorGeometry 10 10 50 50 = ⟨2, 2, (-12, -12)⟩ := by
  simp [compositorGeometry, watermark_width_eq_div, watermark_height_eq_div, watermarkPosition]
example : watermark_width 100 = 20 := by simp [watermark_width_eq_div]
example : alphaPoint 255 = 127 := by simp [alphaPoint_eq_div]
example : delete_file ["notes.txt"] "notes.txt" = (.notFound "File not found" 404, ["notes.txt"]) := by
  decide

/-- C1: a staged HEIC/HEIF file whose HEIC encode fails is still reported as a
success by `process_files`, and the composited buffer is re-encoded under the
JPEG branch's parameters with the file persisted under `.jpg` — but the result
handed to the caller names `watermarked_photo.heic` and links
`/download/watermarked_photo.heic`, a file that was never written: the caller
observes the `.heic` extension, not `.jpg` as the claim states. -/
theorem heic_fallback_link_mismatch :
    process_files [⟨"photo.heic", "HEIF", true, false, true⟩] =
      (.ok [("watermarked_photo.heic", "/download/watermarked_photo.heic")],
       ⟨["photo.heic"], ["watermarked_photo.jpg"]⟩) ∧
    "watermarked_photo.heic" ∉
      (process_files [⟨"photo.heic", "HEIF", true, false, true⟩]).2.written ∧
    saveDispatch "HEIF" false = jpegSave ∧
    saveDispatch "HEIC" false = jpegSave ∧
    jpegSave.ext = ".jpg" := by decide

/-- C2: `process_files` is fail-fast.  If every file before the failing one
processes cleanly and the failing file raises in `add_watermark`, the batch
aborts with a 500 error naming only the failing file; the earlier files keep
their side effects (staged originals removed, outputs written, in order) and
the failing file's own staged original is not removed. -/
theorem process_files_fail_fast (good : List StagedFile) (bad : StagedFile)
    (rest : List StagedFile)
    (hg : ∀ f ∈ good, allowed_file f.name = true ∧ f.decodeOk = true ∧ f.removeOk = true)
    (hb : allowed_file bad.name = true) (hbd : bad.decodeOk = false)
    (hr : ∀ f ∈ rest, allowed_file f.name = true)
    (hname : bad.name ∉ good.map (fun f => f.name)) :
    process_files (good ++ bad :: rest) =
      (.err ("Error processing " ++ bad.name ++ ": " ++ "decode failure") 500,
       ⟨good.map (fun f => f.name), good.map watermarkSaved⟩) ∧
    bad.name ∉ (process_files (good ++ bad :: rest)).2.removed := by
  have hfilter :
      (good ++ bad :: rest).filter (fun f => allowed_file f.name) = good ++ bad :: rest := by
    rw [List.filter_eq_self]
    intro f hf
    rcases List.mem_append.mp hf with hf | hf
    · exact (hg f hf).1
    · rcases List.mem_cons.mp hf with rfl | hf
      · exact hb
      · exact hr f hf
  have hne : (good ++ bad :: rest).isEmpty = false := by cases good <;> rfl
  have hloop := processLoop_stops_at_failure good bad rest [] [] []
    (fun f hf => ⟨(hg f hf).2.1, (hg f hf).2.2⟩) hbd
  constructor
  · simp [process_files, hfilter, hne, hloop]
  · simp [process_files, hfilter, hne, hloop]
    intro x hx hxe
    exact hname (List.mem_map.mpr ⟨x, hx, hxe⟩)

/-- Witness for C2 at a concrete batch: `a.jpg` succeeds, `b.png` fails to
decode; the batch aborts naming `b.png`, `a.jpg` keeps its effects, and
`b.png` stays staged. -/
theorem process_files_fail_fast_witness :
    process_files [⟨"a.jpg", "JPEG", true, true, true⟩, ⟨"b.png", "PNG", false, true, true⟩] =
      (.err ("Error processing " ++ "b.png" ++ ": " ++ "decode failure") 500,
       ⟨([⟨"a.jpg", "JPEG", true, true, true⟩] : List StagedFile).map (fun f => f.name),
        ([⟨"a.jpg", "JPEG", true, true, true⟩] : List StagedFile).map watermarkSaved⟩) ∧
    "b.png" ∉
      (process_files
        [⟨"a.jpg", "JPEG", true, true, true⟩, ⟨"b.png", "PNG", false, true, true⟩]).2.removed :=
  process_files_fail_fast [⟨"a.jpg", "JPEG", true, true, true⟩]
    ⟨"b.png", "PNG", false, true, true⟩ []
    (by decide) (by decide) (by decide) (by decide) (by decide)

/-- C3: one retention sweep keeps exactly the files whose modification time is
at or after `now - 24h` and deletes the strictly older ones, in each store
independently; in particular a file at `now - 24h - 1s` is evicted while files
at `now - 23h` or exactly at `now - 24h` are retained. -/
theorem cleanup_evicts_strictly_older (now : Int) (ups wms : List StoredFile)
    (f : StoredFile) :
    (f ∈ (cleanup_pass now ups wms).1 ↔ f ∈ ups ∧ cutoff now ≤ f.mtime) ∧
    (f ∈ (cleanup_pass now ups wms).2 ↔ f ∈ wms ∧ cutoff now ≤ f.mtime) ∧
    evicts now ⟨f.name, now - (24 * 3600 + 1)⟩ = true ∧
    evicts now ⟨f.name, now - 23 * 3600⟩ = false ∧
    evicts now ⟨f.name, now - 24 * 3600⟩ = false := by
  refine ⟨?_, ?_, ?_, ?_, ?_⟩
  · simp [cleanup_pass, List.mem_filter, evicts, not_lt]
  · simp [cleanup_pass, List.mem_filter, evicts, not_lt]
  · simp only [evicts, cutoff, decide_eq_true_eq]
    omega
  · simp only [evicts, cutoff, decide_eq_false_iff_not, not_lt]
    omega
  · simp only [evicts, cutoff, decide_eq_false_iff_not, not_lt]
    omega

/-- C4: the compositor places the scaled logo's top-left corner exactly at
`(W - w - 20, H - h - 20)` with no clamping; for a 10×10 base (logo 50×50 so
`w = h = 2`) both coordinates are `-12`, i.e. negative offsets pass through. -/
theorem watermark_position_exact :
    (∀ baseW baseH logoW logoH : Nat,
      (compositorGeometry baseW baseH logoW logoH).pos =
        ((baseW : ℤ) - (compositorGeometry baseW baseH logoW logoH).w - 20,
         (baseH : ℤ) - (compositorGeometry baseW baseH logoW logoH).h - 20)) ∧
    (∀ W H w h : Int, watermarkPosition W H w h = (W - w - 20, H - h - 20)) ∧
    compositorGeometry 10 10 50 50 = ⟨2, 2, (-12, -12)⟩ ∧
    (compositorGeometry 10 10 50 50).pos.1 < 0 := by
  have hc : compositorGeometry 10 10 50 50 = ⟨2, 2, (-12, -12)⟩ := by
    simp [compositorGeometry, watermark_width_eq_div, watermark_height_eq_div,
      watermarkPosition]
  refine ⟨fun bW bH lW lH => rfl, fun W H w h => rfl, hc, ?_⟩
  rw [hc]
  norm_num

/-- C5: per-pixel opacity reduction is truncating multiplication: for every
opacity fraction `q ∈ [0,1]` the lambda `p ↦ int(p * q)` yields exactly
`⌊p * q⌋` (and never exceeds `p`); the alpha map the source runs is this
lambda at the process constant `OPACITY = 0.5`, so it is deterministic and
reproducible. -/
theorem alpha_opacity_floor (q : ℚ) (h0 : 0 ≤ q) (h1 : q ≤ 1) (p : Nat) :
    ((pointOpacity q p : ℤ) = Int.floor ((p : ℚ) * q)) ∧
    pointOpacity q p ≤ p ∧
    alphaPoint p = pointOpacity OPACITY p ∧
    0 ≤ OPACITY ∧ OPACITY ≤ 1 := by
  have hnn : (0 : ℤ) ≤ Int.floor ((p : ℚ) * q) := Int.floor_nonneg.mpr (by positivity)
  refine ⟨?_, ?_, rfl, by norm_num [OPACITY], by norm_num [OPACITY]⟩
  · simp [pointOpacity, Int.toNat_of_nonneg hnn]
  · have hle : Int.floor ((p : ℚ) * q) ≤ (p : ℤ) :=
      calc Int.floor ((p : ℚ) * q) ≤ Int.floor ((p : ℚ)) :=
            Int.floor_le_floor (mul_le_of_le_one_right (Nat.cast_nonneg p) h1)
        _ = (p : ℤ) := Int.floor_natCast p
    rw [pointOpacity]
    exact Int.toNat_le.mpr hle

/-- Witness for C5 at opacity `1` and alpha `255`. -/
theorem alpha_opacity_floor_witness :
    ((pointOpacity 1 255 : ℤ) = Int.floor ((255 : ℚ) * 1)) ∧
    pointOpacity 1 255 ≤ 255 ∧
    alphaPoint 255 = pointOpacity OPACITY 255 ∧
    0 ≤ OPACITY ∧ OPACITY ≤ 1 :=
  alpha_opacity_floor 1 zero_le_one le_rfl 255

/-- C6: the save dispatch is a pure function of the source format reproducing
the rule table: JPEG→(JPEG, .jpg), PNG→(PNG, .png), HEIC/HEIF→(HEIC, .heic)
with (JPEG, .jpg) as the encode-failure fallback, and anything else→(JPEG, .jpg). -/
theorem choose_output_table :
    (∀ b, saveDispatch "JPEG" b = jpegSave) ∧
    (∀ b, saveDispatch "PNG" b = pngSave) ∧
    saveDispatch "HEIC" true = heicSave ∧
    saveDispatch "HEIF" true = heicSave ∧
    saveDispatch "HEIC" false = jpegSave ∧
    saveDispatch "HEIF" false = jpegSave ∧
    (∀ s b, s ≠ "JPEG" → s ≠ "JPG" → s ≠ "PNG" → s ≠ "HEIC" → s ≠ "HEIF" →
      saveDispatch s b = jpegSave) ∧
    jpegSave.format = "JPEG" ∧ jpegSave.ext = ".jpg" ∧
    pngSave.format = "PNG" ∧ pngSave.ext = ".png" ∧
    heicSave.format = "HEIC" ∧ heicSave.ext = ".heic" := by
  refine ⟨fun b => by simp [saveDispatch], fun b => by simp [saveDispatch],
    by decide, by decide, by decide, by decide, ?_, rfl, rfl, rfl, rfl, rfl, rfl⟩
  intro s b h1 h2 h3 h4 h5
  simp [saveDispatch, h1, h2, h3, h4, h5]

/-- Witness for C6: an unknown format falls through to the JPEG row. -/
theorem choose_output_table_witness :
    saveDispatch "GIF" true = jpegSave ∧ saveDispatch "JPEG" true = jpegSave :=
  ⟨choose_output_table.2.2.2.2.2.2.1 "GIF" true (by decide) (by decide) (by decide)
      (by decide) (by decide),
   choose_output_table.1 true⟩

/-- C7 counterexample: a `/stage` request carrying a single file named
`evil.txt` — extension outside the recognized set — is answered with success
and HTTP 200, not with an error: the file is merely skipped (nothing staged). -/
theorem stage_files_unrecognized_reports_success :
    allowed_file "evil.txt" = false ∧
    stage_files true [⟨"evil.txt", true⟩] = (.success, []) := by decide

/-- C7 amended: `stage_files` checks each submitted file's extension with
`allowed_file` and stages exactly the files that pass (and have a non-empty
filename); a file with an unrecognized extension is silently skipped rather
than rejected, and the request still reports success. -/
theorem stage_files_skips_unrecognized (files : List Upload)
    (hne : files ≠ [])
    (hsel : files.all (fun u => u.name == "") = false)
    (hsave : ∀ u ∈ files, u.saveOk = true) :
    stage_files true files =
      (.success,
       (files.filter (fun u => u.name != "" && allowed_file u.name)).map
         (fun u => u.name)) := by
  have hloop := stageLoop_all_ok files [] hsave
  have hempty : files.isEmpty = false := by
    cases files with
    | nil => exact absurd rfl hne
    | cons a l => rfl
  simp [stage_files, hempty, hsel, hloop]

/-- Witness for C7 (amended) at a concrete request: `evil.txt` is skipped,
`pic.jpg` is staged, the response is success. -/
theorem stage_files_skips_unrecognized_witness :
    stage_files true [⟨"evil.txt", true⟩, ⟨"pic.jpg", true⟩] =
      (.success,
       (([⟨"evil.txt", true⟩, ⟨"pic.jpg", true⟩] : List Upload).filter
         (fun u => u.name != "" && allowed_file u.name)).map (fun u => u.name)) :=
  stage_files_skips_unrecognized [⟨"evil.txt", true⟩, ⟨"pic.jpg", true⟩]
    (by decide) (by decide) (by decide)

/-- C8: for both stores, deleting a filename that is absent from the directory
OR whose extension is not recognized (even if present) answers 404
"File not found"; after a successful delete, deleting the same filename again
answers 404 — never idempotent success. -/
theorem delete_not_found (store : List String) (name : String) :
    (name ∉ store ∨ allowed_file name = false →
      delete_file store name = (.notFound "File not found" 404, store)) ∧
    (name ∉ store ∨ allowed_file name = false →
      delete_original_file store name = (.notFound "File not found" 404, store)) ∧
    ((delete_file store name).1 = .ok →
      (delete_file (delete_file store name).2 name).1 = .notFound "File not found" 404) ∧
    ((delete_original_file store name).1 = .ok →
      (delete_original_file (delete_original_file store name).2 name).1 =
        .notFound "File not found" 404) := by
  have habs : name ∉ store ∨ allowed_file name = false →
      delete_route store name = (.notFound "File not found" 404, store) := by
    intro h
    rcases h with h | h
    · simp [delete_route, h]
    · simp [delete_route, h]
  have hsecond : (delete_route store name).1 = .ok →
      (delete_route (delete_route store name).2 name).1 = .notFound "File not found" 404 := by
    intro h
    by_cases hc : (decide (name ∈ store) && allowed_file name) = true
    · have hstore2 : (delete_route store name).2 = store.filter (fun x => x != name) := by
        simp [delete_route, hc]
      rw [hstore2]
      have hnm : name ∉ store.filter (fun x => x != name) := by
        intro hmem
        have hbne := (List.mem_filter.mp hmem).2
        simp at hbne
      simp [delete_route, hnm]
    · exfalso
      simp [delete_route, hc] at h
  exact ⟨habs, habs, hsecond, hsecond⟩

/-- Witness for C8: `notes.txt` is present in the watermarked store yet delete
answers 404 (unrecognized extension); deleting `photo.jpg` twice answers 404
the second time. -/
theorem delete_not_found_witness :
    delete_file ["notes.txt"] "notes.txt" = (.notFound "File not found" 404, ["notes.txt"]) ∧
    (delete_file (delete_file ["photo.jpg"] "photo.jpg").2 "photo.jpg").1 =
      .notFound "File not found" 404 :=
  ⟨(delete_not_found ["notes.txt"] "notes.txt").1 (Or.inr (by decide)),
   (delete_not_found ["photo.jpg"] "photo.jpg").2.2.1 (by decide)⟩

/-- C9: when the upload folder holds no file with a recognized extension,
`process_files` answers the 400 error "No files to process" with no side
effects on either store, rather than an empty success. -/
theorem process_files_no_candidates (disk : List StagedFile)
    (h : disk.filter (fun f => allowed_file f.name) = []) :
    process_files disk = (.err "No files to process" 400, ⟨[], []⟩) := by
  simp [process_files, h]

/-- Witness for C9: a store holding only `evil.txt` (unrecognized) yields the
400 error and no effects. -/
theorem process_files_no_candidates_witness :
    process_files [⟨"evil.txt", "TXT", true, true, true⟩] =
      (.err "No files to process" 400, ⟨[], []⟩) :=
  process_files_no_candidates [⟨"evil.txt", "TXT", true, true, true⟩] (by decide)

/-- C10: every composition uses the fixed process-wide constants — logo asset
`logo.png`, opacity `0.5`, scaled width `⌊0.2 * W⌋` with aspect-derived
height, bottom-right placement with 20 px padding — and none of the embedded
operations takes a watermark-spec parameter: the constants are baked into the
definitions themselves. -/
theorem fixed_watermark_constants :
    LOGO_PATH = "logo.png" ∧
    OPACITY = 1 / 2 ∧
    SCALE = 1 / 5 ∧
    (∀ p, alphaPoint p = pointOpacity (1 / 2) p) ∧
    (∀ W : Nat, watermark_width W = Nat.floor ((W : ℚ) * (1 / 5))) ∧
    (∀ W H w h : Int, watermarkPosition W H w h = (W - w - 20, H - h - 20)) ∧
    (∀ baseW baseH logoW logoH : Nat,
      compositorGeometry baseW baseH logoW logoH =
        ⟨watermark_width baseW, watermark_height baseW logoW logoH,
         watermarkPosition baseW baseH (watermark_width baseW)
           (watermark_height baseW logoW logoH)⟩) := by
  refine ⟨rfl, rfl, rfl, fun p => rfl, ?_, fun W H w h => rfl, fun a b c d => rfl⟩
  intro W
  simp only [watermark_width, SCALE, Int.floor_toNat]

end WatermarkServer
